import Mathlib

/-!
Verification of the SocksBeta SOCKS5 proxy (src/main.rs) against its
specification. The Rust functions are shallowly embedded: byte streams
become `List Nat` consumed from the front, fallible reads become `Option`
or an explicit outcome type, and the external collaborators (DNS
resolution, outbound dial, socket-write success) become parameters of the
embedded `handle_client`. A `panic` outcome models a Rust `unwrap()` on a
failed `Result` (which aborts the process, since sessions run inline in
the accept loop).
-/

namespace Socks

/-- Bytes on the wire; each element is intended to be < 256. -/
abbrev Bytes := List Nat

/-- Is `b` a UTF-8 continuation byte (0x80..0xBF)? -/
def isContByte (b : Nat) : Bool := decide (0x80 ≤ b ∧ b ≤ 0xBF)

/-- UTF-8 validity of a byte sequence, as checked by Rust's
`String::from_utf8` (RFC 3629: no overlong forms, no surrogates, max
U+10FFFF). -/
def isValidUtf8 : Bytes → Bool
  | [] => true
  | b :: rest =>
    if b ≤ 0x7F then isValidUtf8 rest
    else if 0xC2 ≤ b ∧ b ≤ 0xDF then
      match rest with
      | c1 :: r => isContByte c1 && isValidUtf8 r
      | [] => false
    else if b = 0xE0 then
      match rest with
      | c1 :: c2 :: r => decide (0xA0 ≤ c1 ∧ c1 ≤ 0xBF) && isContByte c2 && isValidUtf8 r
      | _ => false
    else if (0xE1 ≤ b ∧ b ≤ 0xEC) ∨ b = 0xEE ∨ b = 0xEF then
      match rest with
      | c1 :: c2 :: r => isContByte c1 && isContByte c2 && isValidUtf8 r
      | _ => false
    else if b = 0xED then
      match rest with
      | c1 :: c2 :: r => decide (0x80 ≤ c1 ∧ c1 ≤ 0x9F) && isContByte c2 && isValidUtf8 r
      | _ => false
    else if b = 0xF0 then
      match rest with
      | c1 :: c2 :: c3 :: r =>
          decide (0x90 ≤ c1 ∧ c1 ≤ 0xBF) && isContByte c2 && isContByte c3 && isValidUtf8 r
      | _ => false
    else if 0xF1 ≤ b ∧ b ≤ 0xF3 then
      match rest with
      | c1 :: c2 :: c3 :: r => isContByte c1 && isContByte c2 && isContByte c3 && isValidUtf8 r
      | _ => false
    else if b = 0xF4 then
      match rest with
      | c1 :: c2 :: c3 :: r =>
          decide (0x80 ≤ c1 ∧ c1 ≤ 0x8F) && isContByte c2 && isContByte c3 && isValidUtf8 r
      | _ => false
    else false

/-- A resolved socket address (Rust `SocketAddr`): IPv4 with four octets
and a port, or IPv6 (octets irrelevant to the embedded code paths, which
only inspect the port and the V4/V6 distinction). -/
inductive SockAddr where
  | v4 (a b c d : Nat) (port : Nat)
  | v6 (port : Nat)
  deriving DecidableEq, Repr

/-- The port of a socket address (`SocketAddr::port`). -/
def SockAddr.port : SockAddr → Nat
  | .v4 _ _ _ _ p => p
  | .v6 p => p

/-- The SOCKS reply codes of `enum SOCKSReply` (`repr(u8)` values). -/
def succeededCode : Nat := 0x00
/-- Code `SOCKSReply::GeneralSOCKSServerFailture as u8`. -/
def generalFailureCode : Nat := 0x01

/-- Embedding of `fn reply`: builds `[version, code, 0x00]`, appends
`[0x01, octets]` only when the address is IPv4, then always appends the
2-byte big-endian port (`u16::to_be_bytes`), and returns the bytes written
(via `write_all` + `flush`) to the client. -/
def reply (version : Nat) (code : Nat) (target_addr : SockAddr) : Bytes :=
  let base := [version, code, 0x00]
  match target_addr with
  | .v4 a b c d p => base ++ [0x01, a, b, c, d] ++ [p / 256 % 256, p % 256]
  | .v6 p => base ++ [p / 256 % 256, p % 256]

/-- Embedding of `fn process_method`: reads 2 bytes (version, method
count), reads that many method bytes, writes `[version, 0x00]` back, and
returns `(bytes written to the client, returned version, rest of the
input)`. `none` models an `Err` from a short `read_exact`. -/
def process_method : Bytes → Option (Bytes × Nat × Bytes)
  | version :: num_methods :: rest =>
    if num_methods ≤ rest.length then
      some ([version, 0x00], version, rest.drop num_methods)
    else none
  | _ => none

/-- Error values that `process_request` can return (as `anyhow::Error`):
the two custom errors of `mod request_errors`, a short `read_exact`, and
an invalid-UTF-8 domain (`String::from_utf8` failure). -/
inductive RequestError where
  | commandNotAllowed
  | addressNotAllowed
  | shortRead
  | invalidUtf8
  deriving DecidableEq, Repr

/-- Outcome of embedded fallible Rust code: `Ok`, `Err`, or a panic from
`unwrap()` on a failed `Result`/empty iterator. -/
inductive ReqOutcome (α : Type) where
  | ok (a : α)
  | err (e : RequestError)
  | panic
  deriving DecidableEq, Repr

/-- DNS resolution, the external collaborator consumed by
`process_request`: given domain-name bytes and a port, `none` models
`to_socket_addrs()` returning `Err`, and `some l` the resolved address
list. -/
abbrev Resolver := Bytes → Nat → Option (List SockAddr)

/-- Embedding of the `match addr_type` address decoding of
`process_request` (the Address Codec): tag `0x01` reads 4 octets and a
big-endian port (the `(IpAddr::from(ip_buf), port).to_socket_addrs()`
calls on a concrete IPv4 literal always succeed with exactly that
address, so they are pure here); tag `0x03` reads a 1-byte length, that
many name bytes (validated as UTF-8 by `String::from_utf8`), and a port,
then resolves the name — `.unwrap().next().unwrap()` panics when
resolution fails or returns no address; any other tag is
`AddressNotAllowed`. Returns the decoded address and the unread rest. -/
def decode_address (resolve : Resolver) (addr_type : Nat) (s : Bytes) :
    ReqOutcome (SockAddr × Bytes) :=
  if addr_type = 0x01 then
    match s with
    | a :: b :: c :: d :: ph :: pl :: rest =>
        .ok (.v4 a b c d (ph * 256 + pl), rest)
    | _ => .err .shortRead
  else if addr_type = 0x03 then
    match s with
    | len :: s2 =>
      if len ≤ s2.length then
        let domain := s2.take len
        if isValidUtf8 domain then
          match s2.drop len with
          | ph :: pl :: rest =>
            match resolve domain (ph * 256 + pl) with
            | none => .panic
            | some [] => .panic
            | some (addr :: _) => .ok (addr, rest)
          | _ => .err .shortRead
        else .err .invalidUtf8
      else .err .shortRead
    | [] => .err .shortRead
  else .err .addressNotAllowed

/-- Embedding of `fn process_request`: reads 4 bytes
`[version, cmd, reserved, addr_type]`, rejects `cmd ≠ 0x01` with
`CommandNotAllowedError` before looking at the address, then decodes the
target address. -/
def process_request (resolve : Resolver) : Bytes → ReqOutcome (SockAddr × Bytes)
  | _v :: cmd :: _rsv :: addr_type :: s1 =>
    if cmd ≠ 0x01 then .err .commandNotAllowed
    else decode_address resolve addr_type s1
  | _ => .err .shortRead

/-- The result of one `TcpStream::read` into a 4096-byte buffer:
`ok bytes` is `Ok(bytes.len())` with the bytes read (`ok []` is the
zero-length end-of-stream read), `err wb` is `Err(e)` where `wb` records
`e.kind() == io::ErrorKind::WouldBlock`. -/
inductive ReadRes where
  | ok (bytes : Bytes)
  | err (wouldBlock : Bool)
  deriving DecidableEq, Repr

/-- The bytes each socket of a relay session has received so far:
`sentToTarget` is everything written (`write_all` + `flush`) to the
target stream, `sentToClient` everything written to the client stream. -/
structure RelaySt where
  sentToTarget : Bytes
  sentToClient : Bytes
  deriving DecidableEq, Repr

/-- One event of the `for event in events.iter()` loop of `serve_epoll`:
key 1 reads the client stream, key 2 the target stream, any other key
does nothing. A read error — `WouldBlock` included, since `serve_epoll`'s
`Err(e)` arms ignore the kind — sets the corresponding closed flag, as
does a zero-length read; a positive read writes the bytes to the other
stream (`writeOk` models whether that `write_all`/`flush` succeeds —
`none` is the `?`-propagated early `Err` return). -/
def epoll_handle_event (key : Nat) (r : ReadRes) (writeOk : Bool)
    (cc tc : Bool) (st : RelaySt) : Option (Bool × Bool × RelaySt) :=
  if key = 1 then
    match r with
    | .ok [] => some (true, tc, st)
    | .ok bs =>
        if writeOk then some (cc, tc, { st with sentToTarget := st.sentToTarget ++ bs })
        else none
    | .err _ => some (true, tc, st)
  else if key = 2 then
    match r with
    | .ok [] => some (cc, true, st)
    | .ok bs =>
        if writeOk then some (cc, tc, { st with sentToClient := st.sentToClient ++ bs })
        else none
    | .err _ => some (cc, true, st)
  else some (cc, tc, st)

/-- Folds `epoll_handle_event` over the readiness events of one
`serve_epoll` loop iteration, threading the per-iteration
`client_closed`/`target_closed` flags. -/
def epoll_process_events : List (Nat × ReadRes × Bool) → Bool → Bool → RelaySt →
    Option (Bool × Bool × RelaySt)
  | [], cc, tc, st => some (cc, tc, st)
  | (k, r, w) :: evs, cc, tc, st =>
    match epoll_handle_event k r w cc tc st with
    | none => none
    | some (cc2, tc2, st2) => epoll_process_events evs cc2 tc2 st2

/-- What one `serve_epoll` loop iteration does to the session. -/
inductive IterResult where
  | continued (st : RelaySt)
  | closed (st : RelaySt)
  | errored
  deriving DecidableEq, Repr

/-- One iteration of the `serve_epoll` loop: the flags start false (they
are declared inside the loop), the delivered events are processed in
order, and afterwards `if client_closed || target_closed { break }`; a
write failure is the `?` early return (`errored`). -/
def serve_epoll_iter (evs : List (Nat × ReadRes × Bool)) (st : RelaySt) : IterResult :=
  match epoll_process_events evs false false st with
  | none => .errored
  | some (cc, tc, st2) => if cc || tc then .closed st2 else .continued st2

/-- One direction-handling step of the plain `serve` loop (the relay NOT
used by `handle_client`): unlike `serve_epoll`, its `Err(e)` arm checks
`e.kind() != io::ErrorKind::WouldBlock`, so a would-block read leaves the
closed flag alone. `side = 1` is the client read, `side = 2` the target
read. -/
def serve_handle_read (side : Nat) (r : ReadRes) (writeOk : Bool)
    (cc tc : Bool) (st : RelaySt) : Option (Bool × Bool × RelaySt) :=
  if side = 1 then
    match r with
    | .ok [] => some (true, tc, st)
    | .ok bs =>
        if writeOk then some (cc, tc, { st with sentToTarget := st.sentToTarget ++ bs })
        else none
    | .err wb => if wb then some (cc, tc, st) else some (true, tc, st)
  else
    match r with
    | .ok [] => some (cc, true, st)
    | .ok bs =>
        if writeOk then some (cc, tc, { st with sentToClient := st.sentToClient ++ bs })
        else none
    | .err wb => if wb then some (cc, tc, st) else some (cc, true, st)

/-- One iteration of the `serve` loop: read the client stream, then the
target stream, then `if client_closed || target_closed { break }`. -/
def serve_iter (cRead tRead : ReadRes) (cWriteOk tWriteOk : Bool) (st : RelaySt) :
    IterResult :=
  match serve_handle_read 1 cRead cWriteOk false false st with
  | none => .errored
  | some (cc, tc, st1) =>
    match serve_handle_read 2 tRead tWriteOk cc tc st1 with
    | none => .errored
    | some (cc2, tc2, st2) => if cc2 || tc2 then .closed st2 else .continued st2

/-- The `serve_epoll` loop driven by client-to-target traffic: `pending`
is the byte sequence the client has written and the relay has not yet
read; each schedule entry `s` yields one loop iteration whose single
event is a client read of `min (s+1) 4096` pending bytes (capped by the
4096-byte `client_buffer` and by what is available; at least 1 byte since
the socket is readable and not closed). An empty `pending` means the next
client readiness event reads `Ok(0)` and the loop breaks. -/
def relay_from_client (sched : List Nat) (pending : Bytes) (st : RelaySt) : RelaySt :=
  match sched, pending with
  | _, [] => st
  | [], _ => st
  | s :: rest, p =>
    let n := min (min (s + 1) 4096) p.length
    match serve_epoll_iter [(1, ReadRes.ok (p.take n), true)] st with
    | .continued st2 => relay_from_client rest (p.drop n) st2
    | .closed st2 => st2
    | .errored => st

/-- The environment of one `handle_client` session: the DNS resolver, the
outcome of `TcpStream::connect` on the decoded address (`dial`), and
whether the reply write to the client succeeds. -/
structure Env where
  resolve : Resolver
  dial : SockAddr → Bool
  replyWriteOk : Bool

/-- The observable actions of `handle_client`, in program order. Socket
shutdowns are `Shutdown::Both`. `wroteReply` records a call to `reply`
(the single write_all of the reply frame; the attempt on the dial-failure
path has its result discarded by `let _ =`). -/
inductive Event where
  | wroteMethodResponse (bytes : Bytes)
  | wroteReply (code : Nat) (bytes : Bytes)
  | ranRelay
  | targetShutdown
  | clientShutdown
  deriving DecidableEq, Repr

/-- Whether `handle_client` returned normally or the session panicked
(an `unwrap` in `process_request`); sessions run inline in the accept
loop, so a panic unwinds `main` and terminates the listener process. -/
inductive SessionOutcome where
  | returned
  | panicked
  deriving DecidableEq, Repr

/-- Embedding of `fn handle_client`: the nested `if let Ok(..)` chain of
the source, producing the ordered event trace and whether the call
returned. The final `client_stream.shutdown(Shutdown::Both)` runs on
every returning path; `target_stream.shutdown(Shutdown::Both)` runs on
every returning path where the dial succeeded. -/
def handle_client (env : Env) (input : Bytes) : List Event × SessionOutcome :=
  match process_method input with
  | none => ([.clientShutdown], .returned)
  | some (mresp, version, s1) =>
    match process_request env.resolve s1 with
    | .panic => ([.wroteMethodResponse mresp], .panicked)
    | .err _ => ([.wroteMethodResponse mresp, .clientShutdown], .returned)
    | .ok (target_addr, _rest) =>
      if env.dial target_addr then
        if env.replyWriteOk then
          ([.wroteMethodResponse mresp,
            .wroteReply succeededCode (reply version succeededCode target_addr),
            .ranRelay, .targetShutdown, .clientShutdown], .returned)
        else
          ([.wroteMethodResponse mresp,
            .wroteReply succeededCode (reply version succeededCode target_addr),
            .targetShutdown, .clientShutdown], .returned)
      else
        ([.wroteMethodResponse mresp,
          .wroteReply generalFailureCode (reply version generalFailureCode target_addr),
          .clientShutdown], .returned)

/-- How many times a session wrote (attempted) a SOCKS reply frame. -/
def replyCount (evs : List Event) : Nat :=
  (evs.filter fun e => match e with | .wroteReply _ _ => true | _ => false).length

/-- Returns `true` iff no relay runs before the first reply frame is
written. -/
def noRelayBeforeReply : List Event → Bool
  | [] => true
  | .ranRelay :: _ => false
  | .wroteReply _ _ :: _ => true
  | _ :: rest => noRelayBeforeReply rest

/-- A resolver on which every lookup fails (`to_socket_addrs` returns
`Err`), e.g. for `"nonexistent.invalid"` or the empty name `""` (whose
formatted string `":80"` is not a valid socket address). -/
def resolveNone : Resolver := fun _ _ => none

/-- Taking exactly the length of the left part of an append. -/
theorem take_len_append (l₁ l₂ : Bytes) : (l₁ ++ l₂).take l₁.length = l₁ := by
  induction l₁ with
  | nil => rfl
  | cons x xs ih => simp [ih]

/-- Dropping exactly the length of the left part of an append. -/
theorem drop_len_append (l₁ l₂ : Bytes) : (l₁ ++ l₂).drop l₁.length = l₂ := by
  induction l₁ with
  | nil => rfl
  | cons x xs ih => simp [ih]

/-- An environment for concrete instantiations: all lookups fail to
resolve, dials succeed, reply writes succeed. -/
def envNoResolve : Env := ⟨resolveNone, fun _ => true, true⟩

/-- An environment for concrete instantiations: every name resolves to
127.0.0.1:80, dials succeed, reply writes succeed. -/
def envLocal : Env := ⟨fun _ _ => some [SockAddr.v4 127 0 0 1 80], fun _ => true, true⟩

/-- Bytes of the ASCII string "nonexistent.invalid" (19 bytes). -/
def nonexistentInvalid : Bytes :=
  [110, 111, 110, 101, 120, 105, 115, 116, 101, 110, 116, 46,
   105, 110, 118, 97, 108, 105, 100]

/-- Accumulator-generalised delivery lemma for the client-to-target
relay loop: while pending bytes remain and the schedule has an entry per
read, each `serve_epoll` iteration moves a nonempty prefix of `pending`
onto `sentToTarget`, so the loop appends exactly `pending`, in order,
touching nothing else. -/
theorem relay_from_client_spec (sched : List Nat) :
    ∀ (p : Bytes) (st : RelaySt), p.length ≤ sched.length →
      relay_from_client sched p st = ⟨st.sentToTarget ++ p, st.sentToClient⟩ := by
  induction sched with
  | nil =>
    intro p st h
    have hp : p = [] := List.length_eq_zero.mp (Nat.le_zero.mp h)
    subst hp
    simp [relay_from_client]
  | cons s rest ih =>
    intro p st h
    match p with
    | [] => simp [relay_from_client]
    | x :: xs =>
      obtain ⟨m, hm⟩ : ∃ m, min (min (s + 1) 4096) (x :: xs).length = m + 1 := by
        have h1 : 0 < min (min (s + 1) 4096) (x :: xs).length :=
          lt_min (lt_min (Nat.succ_pos s) (by norm_num)) (by simp)
        exact ⟨min (min (s + 1) 4096) (x :: xs).length - 1, by omega⟩
      have hmle : m + 1 ≤ xs.length + 1 := by
        have h2 := Nat.min_le_right (min (s + 1) 4096) (x :: xs).length
        rw [hm] at h2
        simpa using h2
      have hlen : xs.length ≤ rest.length := by simpa using h
      simp only [relay_from_client]
      rw [hm, List.take_succ_cons, List.drop_succ_cons]
      simp only [serve_epoll_iter, epoll_process_events, epoll_handle_event,
        if_pos rfl, if_true, Bool.false_or, Bool.or_self, if_false]
      rw [if_neg Bool.false_ne_true]
      have hrec := ih (xs.drop m) ⟨st.sentToTarget ++ x :: xs.take m, st.sentToClient⟩
        (by simp only [List.length_drop]; omega)
      exact hrec.trans (by simp [List.append_assoc, List.take_append_drop])

/-- C1: in the relay (`serve_epoll`), every byte sequence B pending from
the client is delivered to the target byte-for-byte, in order, with no
duplication or drop, across any schedule of reads through the 4096-byte
buffer (each read takes at most 4096 bytes); moreover each positive read
of bytes `bs` is immediately and fully written to the other socket
within the same iteration, and nothing is written to the client by
client-side reads. -/
theorem serve_epoll_delivers (B sched : List Nat) (h : B.length ≤ sched.length) :
    (relay_from_client sched B ⟨[], []⟩).sentToTarget = B ∧
    (relay_from_client sched B ⟨[], []⟩).sentToClient = [] ∧
    (∀ (st : RelaySt) (bs : Bytes), bs ≠ [] →
      serve_epoll_iter [(1, ReadRes.ok bs, true)] st =
        .continued ⟨st.sentToTarget ++ bs, st.sentToClient⟩) := by
  refine ⟨?_, ?_, ?_⟩
  · rw [relay_from_client_spec sched B ⟨[], []⟩ h]; simp
  · rw [relay_from_client_spec sched B ⟨[], []⟩ h]
  · intro st bs hbs
    match bs with
    | [] => exact absurd rfl hbs
    | b :: bs' =>
      simp [serve_epoll_iter, epoll_process_events, epoll_handle_event]

/-- Witness for C1 at B = [1,2,3] over a three-entry schedule. -/
theorem serve_epoll_delivers_witness :
    (relay_from_client [0, 0, 0] [1, 2, 3] ⟨[], []⟩).sentToTarget = [1, 2, 3] :=
  (serve_epoll_delivers [1, 2, 3] [0, 0, 0] (by decide)).1

/-- C5: for every valid method-negotiation request — version byte 5, a
method count N ≤ 255 and N method bytes — `process_method` writes back
exactly `[0x05, 0x00]` regardless of which methods were offered, and
returns the version byte 5 (further input is left unread). -/
theorem process_method_always_no_auth (n : Nat) (methods rest : Bytes)
    (hn : n ≤ 255) (hlen : methods.length = n) :
    process_method (5 :: n :: (methods ++ rest)) = some ([5, 0], 5, rest) := by
  subst hlen
  simp only [process_method]
  rw [if_pos (by simp), drop_len_append]

/-- Witness for C5: one method (no-auth) offered. -/
theorem process_method_always_no_auth_witness :
    process_method (5 :: 1 :: ([0] ++ [])) = some ([5, 0], 5, []) :=
  process_method_always_no_auth 1 [0] [] (by decide) (by decide)

/-- C10: `process_method` never validates the version byte: for every
version byte v with a readable method list it succeeds, echoes v in the
response `[v, 0x00]`, and returns v. -/
theorem process_method_echoes_any_version (v n : Nat) (methods rest : Bytes)
    (_hv : v ≤ 255) (hn : n ≤ 255) (hlen : methods.length = n) :
    process_method (v :: n :: (methods ++ rest)) = some ([v, 0], v, rest) := by
  subst hlen
  simp only [process_method]
  rw [if_pos (by simp), drop_len_append]

/-- Witness for C10 at version byte 4. -/
theorem process_method_echoes_any_version_witness :
    process_method (4 :: 2 :: ([7, 9] ++ [1])) = some ([4, 0], 4, [1]) :=
  process_method_echoes_any_version 4 2 [7, 9] [1] (by decide) (by decide) (by decide)

/-- C6: a connect request whose command byte is not 0x01 makes
`process_request` fail with `CommandNotAllowedError` (before the address
is even examined), and `handle_client` then terminates the session with
no reply frame written: the trace is just the method response followed by
the client shutdown. -/
theorem command_not_allowed_no_reply (env : Env) (input : Bytes)
    (mresp : Bytes) (ver : Nat) (s1 : Bytes) (v cmd rsv atyp : Nat) (rest : Bytes)
    (hpm : process_method input = some (mresp, ver, s1))
    (hs1 : s1 = v :: cmd :: rsv :: atyp :: rest)
    (hcmd : cmd ≠ 0x01) :
    process_request env.resolve s1 = .err .commandNotAllowed ∧
    handle_client env input = ([.wroteMethodResponse mresp, .clientShutdown], .returned) := by
  have hreq : process_request env.resolve s1 = .err .commandNotAllowed := by
    subst hs1
    simp [process_request, hcmd]
  refine ⟨hreq, ?_⟩
  simp [handle_client, hpm, hreq]

/-- Witness for C6: a UDP-associate request (command 0x03). -/
theorem command_not_allowed_no_reply_witness :
    handle_client envLocal ([5, 1, 0] ++ [5, 3, 0, 1, 127, 0, 0, 1, 0, 80]) =
      ([.wroteMethodResponse [5, 0], .clientShutdown], .returned) :=
  (command_not_allowed_no_reply envLocal ([5, 1, 0] ++ [5, 3, 0, 1, 127, 0, 0, 1, 0, 80])
    [5, 0] 5 [5, 3, 0, 1, 127, 0, 0, 1, 0, 80] 5 3 0 1 [127, 0, 0, 1, 0, 80]
    (by decide) (by decide) (by decide)).2

/-- C7: round-trip of the IPv4 Address Codec — `reply` encodes an IPv4
address and port into the frame
`[version, code, 0x00, 0x01, a, b, c, d, port_hi, port_lo]`, and the
IPv4 branch of `decode_address` applied to the tag and the 6 bytes after
it recovers exactly the original address and port. -/
theorem reply_roundtrip_ipv4 (resolve : Resolver) (v code a b c d p : Nat)
    (hp : p < 65536) :
    reply v code (.v4 a b c d p) = [v, code, 0, 1, a, b, c, d, p / 256, p % 256] ∧
    decode_address resolve 0x01 [a, b, c, d, p / 256, p % 256] = .ok (.v4 a b c d p, []) := by
  constructor
  · have hdiv : p / 256 % 256 = p / 256 := Nat.mod_eq_of_lt (by omega)
    simp [reply, hdiv]
  · simp only [decode_address, if_pos rfl]
    have : p / 256 * 256 + p % 256 = p := by omega
    rw [this]
    simp

/-- Witness for C7 at 192.168.0.1:443. -/
theorem reply_roundtrip_ipv4_witness :
    reply 5 0 (.v4 192 168 0 1 443) = [5, 0, 0, 1, 192, 168, 0, 1, 1, 187] ∧
    decode_address resolveNone 0x01 [192, 168, 0, 1, 1, 187] =
      .ok (.v4 192 168 0 1 443, []) := by
  have h := reply_roundtrip_ipv4 resolveNone 5 0 192 168 0 1 443 (by decide)
  exact ⟨h.1.trans (by norm_num), h.2.symm.trans (by norm_num) |>.symm⟩

/-- C2: evaluation of `handle_client` at the failing input — a valid
handshake (`05 01 00`) followed by a connect request for the domain
"nonexistent.invalid" port 80 whose resolution fails. The session does
NOT reply `GeneralSOCKSServerFailure`: `process_request` hits
`.to_socket_addrs().unwrap()` on an `Err`, so the session panics with no
reply and no shutdown; since `handle_client` runs inline in the accept
loop of `main`, the panic unwinds `main` and terminates the listener. -/
theorem resolution_failure_panics :
    handle_client envNoResolve
        ([5, 1, 0] ++ [5, 1, 0, 3, 19] ++ nonexistentInvalid ++ [0, 80]) =
      ([.wroteMethodResponse [5, 0]], .panicked) := by
  decide

/-- C3 counterexample: in `serve_epoll` a client read failing with
`WouldBlock` sets `client_closed` and the loop breaks — the transient
"would block" condition DOES end the session, contrary to the claim. -/
theorem epoll_wouldblock_closes :
    serve_epoll_iter [(1, ReadRes.err true, true)] ⟨[], []⟩ = .closed ⟨[], []⟩ := by
  decide

/-- C3 amended: in `serve_epoll` (the relay `handle_client` uses), every
read error — the would-block kind included, since its `Err` arms never
inspect the kind — ends the session, as does a zero-length read on
either socket; a failed write of a positive read ends the session by an
early `Err` return. Only the unused relay `serve` treats a would-block
read as a non-event that keeps the session alive. -/
theorem serve_epoll_error_handling (st : RelaySt) (wb : Bool) (bs : Bytes)
    (hbs : bs ≠ []) :
    serve_epoll_iter [(1, ReadRes.err wb, true)] st = .closed st ∧
    serve_epoll_iter [(2, ReadRes.err wb, true)] st = .closed st ∧
    serve_epoll_iter [(1, ReadRes.ok [], true)] st = .closed st ∧
    serve_epoll_iter [(2, ReadRes.ok [], true)] st = .closed st ∧
    serve_epoll_iter [(1, ReadRes.ok bs, false)] st = .errored ∧
    serve_iter (ReadRes.err true) (ReadRes.err true) true true st = .continued st := by
  match bs with
  | [] => exact absurd rfl hbs
  | b :: bs' =>
    refine ⟨?_, ?_, ?_, ?_, ?_, ?_⟩ <;>
      simp [serve_epoll_iter, epoll_process_events, epoll_handle_event,
        serve_iter, serve_handle_read]

/-- Witness for C3's amended theorem at a one-byte read. -/
theorem serve_epoll_error_handling_witness :
    serve_epoll_iter [(1, ReadRes.ok [7], false)] ⟨[], []⟩ = .errored :=
  (serve_epoll_error_handling ⟨[], []⟩ true [7] (by decide)).2.2.2.2.1

/-- C4 counterexample: a domain-name connect request whose length byte is
0 is NOT rejected with a decoding error — decoding accepts the empty
name, resolution of the formatted string ":80" fails, and the
`unwrap()` panics. -/
theorem domain_len_zero_panics :
    process_request resolveNone [5, 1, 0, 3, 0, 0, 80] = .panic := by
  decide

/-- C4 amended: domain-name decoding in `process_request` rejects a name
containing invalid UTF-8 bytes with a decoding error
(`String::from_utf8` failure), but it does not reject a length byte of
0: the empty name is accepted by decoding and, its resolution failing,
the session panics on `unwrap()` instead of returning an error. -/
theorem domain_decoding_errors (resolve : Resolver) (v rsv ph pl : Nat)
    (dbytes rest : Bytes) (hbad : isValidUtf8 dbytes = false) :
    process_request resolve
        (v :: 1 :: rsv :: 3 :: dbytes.length :: (dbytes ++ ph :: pl :: rest)) =
      .err .invalidUtf8 ∧
    process_request resolveNone (v :: 1 :: rsv :: 3 :: 0 :: ph :: pl :: rest) = .panic := by
  constructor
  · simp only [process_request, decode_address, if_neg (by decide : ¬ (1 ≠ 1)),
      if_neg (by decide : ¬ (3 = 1)), if_pos rfl]
    rw [if_pos (by simp), take_len_append, hbad]
    simp
  · rfl

/-- Witness for C4's amended theorem: the lone byte 0xFF is invalid
UTF-8. -/
theorem domain_decoding_errors_witness :
    process_request resolveNone (5 :: 1 :: 0 :: 3 :: [255].length :: ([255] ++ 0 :: 80 :: [])) =
      .err .invalidUtf8 :=
  (domain_decoding_errors resolveNone 5 0 0 80 [255] [] (by decide)).1

/-- C8: in every session, at most one reply frame is ever written, no
relay runs before the reply frame is written, and handshake failures
(method-negotiation failure or request failure) produce no reply at
all. -/
theorem reply_written_at_most_once (env : Env) (input : Bytes) :
    replyCount (handle_client env input).1 ≤ 1 ∧
    noRelayBeforeReply (handle_client env input).1 = true ∧
    (process_method input = none → replyCount (handle_client env input).1 = 0) ∧
    (∀ (mresp : Bytes) (ver : Nat) (s1 : Bytes) (e : RequestError),
      process_method input = some (mresp, ver, s1) →
      process_request env.resolve s1 = .err e →
      replyCount (handle_client env input).1 = 0) := by
  unfold handle_client
  match hpm : process_method input with
  | none => simp [replyCount, noRelayBeforeReply]
  | some (mresp, version, s1) =>
    match hpr : process_request env.resolve s1 with
    | .panic => simp [replyCount, noRelayBeforeReply, hpr]
    | .err e => simp [replyCount, noRelayBeforeReply, hpr]
    | .ok (addr, rest) =>
      match hd : env.dial addr with
      | false =>
        refine ⟨by simp [replyCount, hpr, hd], by simp [noRelayBeforeReply, hpr, hd], by simp, ?_⟩
        intro mresp' ver' s1' e heq herr
        obtain ⟨rfl, rfl, rfl⟩ : mresp = mresp' ∧ version = ver' ∧ s1 = s1' := by
          simpa using heq
        rw [hpr] at herr
        exact absurd herr (by simp)
      | true =>
        match hw : env.replyWriteOk with
        | false =>
          refine ⟨by simp [replyCount, hpr, hd, hw], by simp [noRelayBeforeReply, hpr, hd, hw],
            by simp, ?_⟩
          intro mresp' ver' s1' e heq herr
          obtain ⟨rfl, rfl, rfl⟩ : mresp = mresp' ∧ version = ver' ∧ s1 = s1' := by
            simpa using heq
          rw [hpr] at herr
          exact absurd herr (by simp)
        | true =>
          refine ⟨by simp [replyCount, hpr, hd, hw], by simp [noRelayBeforeReply, hpr, hd, hw],
            by simp, ?_⟩
          intro mresp' ver' s1' e heq herr
          obtain ⟨rfl, rfl, rfl⟩ : mresp = mresp' ∧ version = ver' ∧ s1 = s1' := by
            simpa using heq
          rw [hpr] at herr
          exact absurd herr (by simp)

/-- Witness for C8's handshake-failure conjunct: an empty input stream
fails method negotiation and yields zero replies. -/
theorem reply_written_at_most_once_witness :
    replyCount (handle_client envNoResolve []).1 = 0 :=
  (reply_written_at_most_once envNoResolve []).2.2.1 rfl

/-- C9: on every path of `handle_client` that returns, the last action
is the unconditional `Shutdown::Both` of the client socket, and on every
returning path where the outbound dial succeeded the target socket is
also shut down for both directions (whatever the relay or reply write
did). -/
theorem handle_client_always_shuts_down (env : Env) (input : Bytes)
    (h : (handle_client env input).2 = .returned) :
    (handle_client env input).1.getLast? = some .clientShutdown ∧
    (∀ (mresp : Bytes) (ver : Nat) (s1 rest : Bytes) (addr : SockAddr),
      process_method input = some (mresp, ver, s1) →
      process_request env.resolve s1 = .ok (addr, rest) →
      env.dial addr = true →
      Event.targetShutdown ∈ (handle_client env input).1) := by
  match hpm : process_method input with
  | none => simp [handle_client, hpm]
  | some (mresp, version, s1) =>
    match hpr : process_request env.resolve s1 with
    | .panic =>
      exfalso
      simp [handle_client, hpm, hpr] at h
    | .err e =>
      refine ⟨by simp [handle_client, hpm, hpr], ?_⟩
      intro mresp' ver' s1' rest' addr' hpm' hpr' hd'
      obtain ⟨rfl, rfl, rfl⟩ : mresp = mresp' ∧ version = ver' ∧ s1 = s1' := by
        simpa using hpm'
      rw [hpr] at hpr'
      exact absurd hpr' (by simp)
    | .ok (addr, rest) =>
      match hd : env.dial addr with
      | false =>
        refine ⟨by simp [handle_client, hpm, hpr, hd], ?_⟩
        intro mresp' ver' s1' rest' addr' hpm' hpr' hd'
        obtain ⟨rfl, rfl, rfl⟩ : mresp = mresp' ∧ version = ver' ∧ s1 = s1' := by
          simpa using hpm'
        rw [hpr] at hpr'
        obtain ⟨rfl, rfl⟩ : addr = addr' ∧ rest = rest' := by simpa using hpr'
        rw [hd] at hd'
        exact absurd hd' (by simp)
      | true =>
        match hw : env.replyWriteOk with
        | false => simp [handle_client, hpm, hpr, hd, hw]
        | true => simp [handle_client, hpm, hpr, hd, hw]

/-- Witness for C9 on a fully successful session to 127.0.0.1:80: the
trace ends in the client shutdown and contains the target shutdown. -/
theorem handle_client_always_shuts_down_witness :
    (handle_client envLocal ([5, 1, 0] ++ [5, 1, 0, 1, 127, 0, 0, 1, 0, 80])).1.getLast?
        = some .clientShutdown ∧
    Event.targetShutdown ∈
      (handle_client envLocal ([5, 1, 0] ++ [5, 1, 0, 1, 127, 0, 0, 1, 0, 80])).1 :=
  ⟨(handle_client_always_shuts_down envLocal
      ([5, 1, 0] ++ [5, 1, 0, 1, 127, 0, 0, 1, 0, 80]) (by decide)).1,
   (handle_client_always_shuts_down envLocal
      ([5, 1, 0] ++ [5, 1, 0, 1, 127, 0, 0, 1, 0, 80]) (by decide)).2
     [5, 0] 5 [5, 1, 0, 1, 127, 0, 0, 1, 0, 80] [] (SockAddr.v4 127 0 0 1 80)
     (by decide) (by decide) rfl⟩

end Socks
